/-
Verification of the OBBBA network explorer core (dataset loader/cache,
scoped-view projector, truncation/ranking engine, consistency controller)
against its natural-language specification.

Shallow embedding of `src/api.ts` and `src/App.tsx`.  TypeScript machine
values are modelled as follows: strings as `String`, numbers that hold
integer counts/ids as `Nat`, nullable values as `Option`, the JS falsy
fallbacks `??` / `||` as the explicit helpers below, ES2019+ stable
`Array.prototype.sort` as `List.insertionSort` with a non-strict total
comparison (both are stable sorts for the same preorder, hence produce
identical output), and `Map` / `Set` as total functions / membership lists.
Asynchronous functions are modelled as explicit state transformers; the
network fetches they perform are supplied by an explicit oracle record, and
the opaque `NetworkBuilder.buildNetwork` collaborator (whose source is
outside the verified core) is a function-valued parameter.
-/
import Mathlib

/-- The two dataset variants ("time scopes"): `pre-OBBBA` and `post-OBBBA`
(`TimeScope` in `src/types.ts`). -/
inductive TimeScope
  | pre
  | post
deriving DecidableEq, Repr

/-- A link endpoint is heterogeneous in the data: either a bare id string or
an embedded node object (`string | GraphNode` in `src/types.ts`); only the
id of an embedded object is ever consulted by the verified code. -/
inductive Endpoint
  | str (id : String)
  | obj (id : String)
deriving DecidableEq, Repr

/-- `typeof l.source === 'string' ? l.source : l.source.id` from the source. -/
def Endpoint.getId : Endpoint → String
  | .str s => s
  | .obj s => s

/-- JS `a ?? b` on a nullable value. -/
def jsCoalesce {α : Type} (a : Option α) (b : α) : α :=
  match a with
  | some x => x
  | none => b

/-- JS `a || b` on a nullable string: `null`, `undefined` and `""` are falsy. -/
def jsOrStr (a : Option String) (b : String) : String :=
  match a with
  | some s => if s = "" then b else s
  | none => b

/-- JS `a || b` on a nullable number: `null`, `undefined` and `0` are falsy. -/
def jsOrNat (a : Option Nat) (b : Nat) : Nat :=
  match a with
  | some n => if n = 0 then b else n
  | none => b

/-- JS `String.prototype.toLowerCase`, computably: lower-case each
character. -/
def jsToLower (s : String) : String :=
  ⟨s.toList.map Char.toLower⟩

/-- A node as it appears in a dataset file (`raw.nodes` entries in
`src/api.ts`).  Fields not consulted by any verified property
(hierarchy/location attributes, `source_title`, `properties`, ...) are
omitted from the embedding. -/
structure RawNode where
  id : String
  name : String
  node_type : String
  time : TimeScope
  display_label : Option String
  text : Option String
deriving DecidableEq, Repr

/-- A link as it appears in a dataset file (`raw.links` entries in
`src/api.ts`); optional fields are `Option`-valued as in the data. -/
structure RawLink where
  source : Endpoint
  target : Endpoint
  edge_type : Option String
  action : Option String
  time : TimeScope
  weight : Option Nat
deriving DecidableEq, Repr

/-- `RawGraph` from `src/api.ts`: the parsed contents of one dataset file. -/
structure RawGraph where
  nodes : List RawNode
  links : List RawLink
deriving DecidableEq, Repr

/-- The node dedup key of the merge loop in `loadRawGraphForTitle`
(`src/api.ts`).  The source builds the template string
`String(n.time) ++ "::" ++ String(n.id)`; since the two time-scope strings
are fixed and contain no `"::"`, that string determines and is determined by
the pair, so the pair is a faithful model of the key. -/
def nodeKey (n : RawNode) : TimeScope × String :=
  (n.time, n.id)

/-- One step of the merge loop of `loadRawGraphForTitle` (`src/api.ts`,
lines 51-60): fold a part's node list into the accumulated `(seen, nodes)`
state, admitting a node only when its key is unseen. -/
def mergeNodeStep (st : List (TimeScope × String) × List RawNode) (n : RawNode) :
    List (TimeScope × String) × List RawNode :=
  if nodeKey n ∈ st.1 then st else (nodeKey n :: st.1, st.2 ++ [n])

/-- Folding one part into the merge state `(seen, nodes, links)`: fold its
nodes through `mergeNodeStep`, append its links unconditionally
(`src/api.ts`, lines 51-60). -/
def mergePartStep (st : List (TimeScope × String) × List RawNode × List RawLink)
    (part : RawGraph) :
    List (TimeScope × String) × List RawNode × List RawLink :=
  let ns := part.nodes.foldl mergeNodeStep (st.1, st.2.1)
  (ns.1, ns.2, st.2.2 ++ part.links)

/-- The merge of a split dataset's parts performed by `loadRawGraphForTitle`
(`src/api.ts`, lines 46-62): iterate parts in listed order, de-duplicate
nodes by `(time, id)` key via a seen-set, concatenate every part's links. -/
def mergeParts (parts : List RawGraph) : RawGraph :=
  let st := parts.foldl mergePartStep ([], [], [])
  { nodes := st.2.1, links := st.2.2 }

/-- One `degreeMap.set(k, (degreeMap.get(k) || 0) + 1)` update from
`loadGraph` (`src/api.ts`); the `Map` is modelled as a total function with
default value `0`. -/
def bumpDegree (m : String → Nat) (k : String) : String → Nat :=
  fun x => if x = k then m k + 1 else m x

/-- The single pass over the entire merged link list that `loadGraph`
(`src/api.ts`, lines 94-100) uses to build `degreeMap`: one increment per
endpoint occurrence, keyed by raw node id. -/
def degreeMap (links : List RawLink) : String → Nat :=
  links.foldl
    (fun m link => bumpDegree (bumpDegree m link.source.getId) link.target.getId)
    (fun _ => 0)

/-- The base-color derivation of `loadGraph` (`src/api.ts`, lines 105-112). -/
def baseColorOf (node_type : String) : String :=
  if node_type = "section" ∨ node_type = "index" then "#41378F"
  else if node_type = "entity" ∨ node_type = "concept" then "#F0A734"
  else "#AFBBE8"

/-- A processed node held in the cached graph (`GraphNode` in
`src/types.ts`); fields no verified property consults are omitted. -/
structure GraphNode where
  id : String
  name : String
  node_type : String
  time : TimeScope
  display_label : Option String
  text : Option String
  val : Nat
  color : String
  baseColor : String
deriving DecidableEq, Repr

/-- A processed link held in the cached graph (`GraphLink` in
`src/types.ts`). -/
structure GraphLink where
  source : Endpoint
  target : Endpoint
  action : String
  edge_type : String
  time : TimeScope
  weight : Nat
deriving DecidableEq, Repr

/-- `GraphData` from `src/types.ts`. -/
structure GraphData where
  nodes : List GraphNode
  links : List GraphLink
deriving DecidableEq, Repr

/-- The pure graph-construction core of `loadGraph` (`src/api.ts`,
lines 94-154): compute the degree map over the whole merged link list, then
map raw nodes to display nodes (`val`/`totalVal` both equal the degree, so a
single `val` field stands for both) and raw links to display links. -/
def buildGraphData (raw : RawGraph) : GraphData :=
  let deg := degreeMap raw.links
  let nodes := raw.nodes.map (fun n =>
    let degree := deg n.id
    let baseColor := baseColorOf n.node_type
    { id := n.id, name := n.name, node_type := n.node_type, time := n.time,
      display_label := n.display_label, text := n.text,
      val := degree, color := baseColor, baseColor := baseColor : GraphNode })
  let links := raw.links.map (fun l =>
    let edgeType := jsCoalesce l.edge_type "reference"
    { source := l.source, target := l.target,
      action := jsOrStr l.action edgeType, edge_type := edgeType,
      time := l.time, weight := jsCoalesce l.weight 1 : GraphLink })
  { nodes := nodes, links := links }

/-- The error taxonomy of a failed load (spec section 7): an unknown title id,
or a file request that did not succeed or did not parse. -/
inductive LoadErr
  | notFound (title : Nat)
  | fetchFailure (path : String)
deriving DecidableEq, Repr

/-- A manifest entry (`ManifestItem` in `src/api.ts`): single-file or split;
the id is stored as its numeric value (`Number(t.id)`). -/
inductive ManifestKind
  | single (file : String)
  | split (meta : String)
deriving DecidableEq, Repr

/-- An entry of `titles-manifest.json`. -/
structure ManifestItem where
  id : Nat
  kind : ManifestKind
deriving DecidableEq, Repr

/-- `TitlesManifest` from `src/api.ts`. -/
structure TitlesManifest where
  version : Nat
  titles : List ManifestItem
deriving DecidableEq, Repr

/-- A split dataset's meta file: the list of constituent part files. -/
structure MetaFile where
  parts : List String
deriving DecidableEq, Repr

/-- The fetch oracle: the outcome `fetchJson` would produce for each
resource; `none` models a non-success response or an unparsable payload. -/
structure Fetcher where
  manifest : Option TitlesManifest
  graphFile : String → Option RawGraph
  metaFile : String → Option MetaFile

/-- `Promise.all` over the part files of a split dataset
(`src/api.ts`, line 44): succeeds with all parts in listed order, rejects
if any part fetch fails. -/
def fetchAllParts (f : Fetcher) : List String → Except LoadErr (List RawGraph)
  | [] => .ok []
  | p :: ps =>
    match f.graphFile p with
    | none => .error (.fetchFailure p)
    | some g =>
      match fetchAllParts f ps with
      | .error e => .error e
      | .ok gs => .ok (g :: gs)

/-- `loadRawGraphForTitle` from `src/api.ts` (lines 34-63): fetch the
manifest, look up the title, fetch a single file or fetch and merge the
parts of a split dataset. -/
def loadRawGraphForTitle (f : Fetcher) (title : Nat) : Except LoadErr RawGraph :=
  match f.manifest with
  | none => .error (.fetchFailure "titles-manifest.json")
  | some manifest =>
    match manifest.titles.find? (fun t => t.id == title) with
    | none => .error (.notFound title)
    | some item =>
      match item.kind with
      | .single file =>
        match f.graphFile file with
        | none => .error (.fetchFailure file)
        | some g => .ok g
      | .split metaPath =>
        match f.metaFile metaPath with
        | none => .error (.fetchFailure metaPath)
        | some meta =>
          match fetchAllParts f meta.parts with
          | .error e => .error e
          | .ok parts => .ok (mergeParts parts)

/-- The module-level mutable cache of `src/api.ts`
(`cachedGraph` / `cachedTitle`). -/
structure ApiState where
  cachedGraph : Option GraphData
  cachedTitle : Option Nat
deriving DecidableEq, Repr

/-- The state before any load. -/
def initialApiState : ApiState :=
  { cachedGraph := none, cachedTitle := none }

/-- `loadGraph` from `src/api.ts` (lines 89-159) as a state transformer:
return the cache when it already holds this title, otherwise resolve and
fetch the raw graph, build the processed graph, and replace the cache;
a failed load leaves the state untouched. -/
def loadGraph (f : Fetcher) (title : Nat) (s : ApiState) :
    Except LoadErr GraphData × ApiState :=
  match s.cachedGraph, decide (s.cachedTitle = some title) with
  | some g, true => (.ok g, s)
  | _, _ =>
    match loadRawGraphForTitle f title with
    | .error e => (.error e, s)
    | .ok raw =>
      let data := buildGraphData raw
      (.ok data, { cachedGraph := some data, cachedTitle := some title })

/-- The scoped-view projector `scopedFullGraph` from `src/App.tsx`
(lines 33-44): nodes of the active scope, and links whose own time tag is
the active scope and whose both endpoint ids occur in the filtered node
set. -/
def scopedFullGraph (fullGraph : GraphData) (timeScope : TimeScope) : GraphData :=
  let nodes := fullGraph.nodes.filter (fun n => n.time == timeScope)
  let nodeIds := nodes.map (fun n => n.id)
  let links := fullGraph.links.filter (fun l =>
    l.time == timeScope && nodeIds.contains l.source.getId &&
      nodeIds.contains l.target.getId)
  { nodes := nodes, links := links }

/-- JS `hay.includes(needle)`: substring containment. -/
def strIncludes (hay needle : String) : Bool :=
  decide (needle.toList <:+: hay.toList)

/-- A search result row (`Actor` in `src/types.ts`, as produced by
`searchActors`). -/
structure Actor where
  id : String
  name : String
  connection_count : Nat
  time : TimeScope
deriving DecidableEq, Repr

/-- The comparison performed by the `searchActors` sort comparator
`a.name.localeCompare(b.name)`, modelled by the lexicographic order on the
character sequences. -/
def actorNameLe (a b : Actor) : Prop :=
  a.name.toList ≤ b.name.toList

instance : DecidableRel actorNameLe :=
  fun a b => inferInstanceAs (Decidable (a.name.toList ≤ b.name.toList))

instance : IsTotal Actor actorNameLe :=
  ⟨fun a b => le_total a.name.toList b.name.toList⟩

instance : IsTrans Actor actorNameLe :=
  ⟨fun _ _ _ h₁ h₂ => le_trans h₁ h₂⟩

/-- `searchActors` from `src/api.ts` (lines 332-356): restrict to the active
scope, keep nodes whose name or display label contains the query
case-insensitively, map to result rows (display label preferred for the
shown name), sort alphabetically, keep the first 20. -/
def searchActors (g : GraphData) (query : String) (timeScope : TimeScope) :
    List Actor :=
  let lowerQuery := jsToLower query
  let pool := g.nodes.filter (fun n => n.time == timeScope)
  let matched := pool.filter (fun node =>
    strIncludes (jsToLower node.name) lowerQuery ||
      strIncludes (jsToLower (jsCoalesce node.display_label "")) lowerQuery)
  let rows := matched.map (fun node =>
    { id := node.id, name := jsOrStr node.display_label node.name,
      connection_count := node.val, time := node.time : Actor })
  (List.insertionSort actorNameLe rows).take 20

/-- A `Selection` (`SelectedNode` in `src/types.ts`): a node id paired with
the scope in which it was chosen. -/
structure SelectedNode where
  id : String
  scope : TimeScope
deriving DecidableEq, Repr

/-- The selection update performed by `switchTimeScope` (`src/App.tsx`,
lines 579-596): the anchor is the open document id if a document modal is
open, else the held selection's id (`openDocId ?? prev?.id`, a
null-coalescing choice); the guard `if (!anchorId) return prev` is a JS
falsy check, firing both when the anchor is null/undefined and when it is
the empty string; past it, if a node with the anchor id exists in the new
scope the selection is re-recorded in the new scope, otherwise the previous
selection is kept unchanged (with its old scope). -/
def switchScopeSelection (fullGraphNodes : List GraphNode)
    (openDocId : Option String) (next : TimeScope)
    (prev : Option SelectedNode) : Option SelectedNode :=
  let anchorId : Option String :=
    match openDocId with
    | some d => some d
    | none => prev.map (fun p => p.id)
  match anchorId with
  | none => prev
  | some aid =>
    if aid = "" then prev
    else if fullGraphNodes.any (fun n => n.id == aid && n.time == next) then
      some { id := aid, scope := next }
    else
      prev

/-- `isSelectedInScope` from `src/App.tsx` (line 115): a Selection is
actionable only while its recorded scope equals the active scope. -/
def isSelectedInScope (selectedNode : Option SelectedNode)
    (timeScope : TimeScope) : Bool :=
  match selectedNode with
  | none => false
  | some sel => sel.scope == timeScope

/-- The request match logic: `'AND' | 'OR'` in `src/App.tsx`. -/
inductive SearchLogic
  | conj
  | disj
deriving DecidableEq, Repr

/-- The ranking mode: `'global' | 'subgraph'` in `src/App.tsx`. -/
inductive RankingMode
  | global
  | subgraph
deriving DecidableEq, Repr

/-- The bottom-up search parameter record of `src/App.tsx`
(`bottomUpSearchParams`, lines 99-108). -/
structure BUParams where
  keywords : String
  expansionDegree : Nat
  maxNodes : Nat
  nodeTypes : List String
  edgeTypes : List String
  searchFields : List String
  searchLogic : SearchLogic
  nodeRankingMode : RankingMode
deriving DecidableEq, Repr

/-- `NetworkBuilderState` from `src/types.ts`, restricted to the fields the
`executeBottomUpSearch` call site populates with request data (the source
also passes always-empty `allowedTitles`/`allowedSections`/`seedNodeIds`). -/
structure NetworkBuilderState where
  searchTerms : List String
  searchFields : List String
  allowedNodeTypes : List String
  allowedEdgeTypes : List String
  expansionDepth : Nat
  maxNodesPerExpansion : Nat
  maxTotalNodes : Nat
deriving DecidableEq, Repr

/-- `FilteredGraph` from `src/types.ts`: a builder result. -/
structure FilteredGraph where
  nodes : List GraphNode
  links : List GraphLink
  truncated : Bool
  matchedCount : Nat
deriving DecidableEq, Repr

/-- The opaque `NetworkBuilder.buildNetwork` collaborator
(`src/services/networkBuilder.ts`, outside the verified core),
as invoked at `src/App.tsx` line 232. -/
def NetworkBuilderFn : Type :=
  NetworkBuilderState → SearchLogic → RankingMode → FilteredGraph

/-- JS `String.prototype.trim`, computably: drop leading and trailing
whitespace. -/
def jsTrim (s : String) : String :=
  ⟨((s.toList.dropWhile Char.isWhitespace).reverse.dropWhile
      Char.isWhitespace).reverse⟩

/-- The keyword parsing in `executeBottomUpSearch` (`src/App.tsx`,
lines 214-217): split on commas, trim, drop empty terms. -/
def parseTerms (keywords : String) : List String :=
  ((keywords.splitOn ",").map jsTrim).filter (fun t => !(t == ""))

/-- The `builderState` constructed by `executeBottomUpSearch`
(`src/App.tsx`, lines 219-230). -/
def mkBuilderState (params : BUParams) : NetworkBuilderState :=
  { searchTerms := parseTerms params.keywords,
    searchFields := params.searchFields,
    allowedNodeTypes := params.nodeTypes,
    allowedEdgeTypes := params.edgeTypes,
    expansionDepth := params.expansionDegree,
    maxNodesPerExpansion := 100,
    maxTotalNodes := params.maxNodes }

/-- Per-node degree within a candidate item list, one increment per endpoint
occurrence: the `nodeDegrees` map of `src/App.tsx` lines 241-247
(and the `nodeDegree` map of lines 519-525). -/
def endpointDegrees {α : Type} (srcId tgtId : α → String) (items : List α) :
    String → Nat :=
  items.foldl (fun m it => bumpDegree (bumpDegree m (srcId it)) (tgtId it))
    (fun _ => 0)

/-- The pair-sum hub score of one item: sum of its two endpoints' degrees
within the candidate list. -/
def hubScore {α : Type} (srcId tgtId : α → String) (deg : String → Nat)
    (it : α) : Nat :=
  deg (srcId it) + deg (tgtId it)

/-- The preorder realised by the JS comparator `degreeB - degreeA`
(descending by score); as a non-strict total preorder, a stable sort under
it keeps equal-score items in original relative order, exactly as the
ES2019+ stable `Array.prototype.sort` does. -/
def hubRel {α : Type} (score : α → Nat) (a b : α) : Prop :=
  score b ≤ score a

instance {α : Type} (score : α → Nat) : DecidableRel (hubRel score) :=
  fun a b => inferInstanceAs (Decidable (score b ≤ score a))

instance {α : Type} (score : α → Nat) : IsTotal α (hubRel score) :=
  ⟨fun a b => (le_total (score b) (score a)).imp id id⟩

instance {α : Type} (score : α → Nat) : IsTrans α (hubRel score) :=
  ⟨fun _ _ _ h₁ h₂ => le_trans h₂ h₁⟩

/-- The shared truncation/ranking engine (spec section 4.4 (a)), as
implemented identically at both call sites (`src/App.tsx` lines 240-264 and
lines 517-540): when the candidate list exceeds the limit, compute per-node
degrees within the list, sort descending by pair-sum score (stable), keep
the top `limit`, and report that truncation occurred. -/
def hubTruncate {α : Type} (srcId tgtId : α → String) (items : List α)
    (limit : Nat) : List α × Bool :=
  if items.length > limit then
    let deg := endpointDegrees srcId tgtId items
    ((List.insertionSort (hubRel (hubScore srcId tgtId deg)) items).take limit,
      true)
  else
    (items, false)

/-- `link.source` id extraction as used at the bottom-up truncation site. -/
def linkSrcId (l : GraphLink) : String := l.source.getId

/-- `link.target` id extraction as used at the bottom-up truncation site. -/
def linkTgtId (l : GraphLink) : String := l.target.getId

/-- The link-limit truncation of `executeBottomUpSearch` (`src/App.tsx`,
lines 240-264). -/
def truncateLinksByHub (links : List GraphLink) (limit : Nat) :
    List GraphLink × Bool :=
  hubTruncate linkSrcId linkTgtId links limit

/-- A topDown relationship row (`Relationship` in `src/types.ts`),
restricted to the fields the `loadData` truncation consults. -/
structure Relationship where
  actor : String
  target : String
  actor_id : Option String
  target_id : Option String
  action : String
deriving DecidableEq, Repr

/-- `rel.actor_id ?? rel.actor` from `loadData` (`src/App.tsx`). -/
def relActorId (r : Relationship) : String :=
  jsCoalesce r.actor_id r.actor

/-- `rel.target_id ?? rel.target` from `loadData` (`src/App.tsx`). -/
def relTargetId (r : Relationship) : String :=
  jsCoalesce r.target_id r.target

/-- The relationship-limit truncation of `loadData` (`src/App.tsx`,
lines 517-540); the plain relationship listing's use of the shared
engine. -/
def truncateRelsByHub (rels : List Relationship) (limit : Nat) :
    List Relationship × Bool :=
  hubTruncate relActorId relTargetId rels limit

/-- The App state that `executeBottomUpSearch` reads and commits:
the monotone run counter `bottomUpRunIdRef.current` (`src/App.tsx`,
line 111) and the committed `displayGraph`. -/
structure SearchState where
  runId : Nat
  displayGraph : FilteredGraph
deriving DecidableEq, Repr

/-- Phase 1 of an `executeBottomUpSearch` invocation (`src/App.tsx`,
line 205): `const runId = ++bottomUpRunIdRef.current` — increment the
shared counter and capture the new value. -/
def bottomUpStart (s : SearchState) : SearchState × Nat :=
  ({ s with runId := s.runId + 1 }, s.runId + 1)

/-- Phase 2 of an `executeBottomUpSearch` invocation (`src/App.tsx`,
lines 235 and 276-281): on completion, commit the computed result to the
displayed state only if the captured run id still equals the shared
counter; otherwise change nothing. -/
def bottomUpFinish (s : SearchState) (captured : Nat)
    (result : FilteredGraph) : SearchState :=
  if captured = s.runId then { s with displayGraph := result } else s

/-- The post-processing `executeBottomUpSearch` applies to a builder result
before committing it (`src/App.tsx`, lines 237-281): hub-truncate the links
to the limit, then keep only nodes incident to a retained link. -/
def finalizeBottomUpResult (filtered : FilteredGraph) (limit : Nat) :
    FilteredGraph :=
  let tr := truncateLinksByHub filtered.links limit
  let nodesInFinalLinks :=
    tr.1.flatMap (fun l => [l.source.getId, l.target.getId])
  let finalNodes := filtered.nodes.filter (fun n => nodesInFinalLinks.contains n.id)
  { nodes := finalNodes, links := tr.1,
    truncated := filtered.truncated || tr.2,
    matchedCount := filtered.matchedCount }

/-- One whole `executeBottomUpSearch` invocation (`src/App.tsx`,
lines 189-296) run without interleaving: refuse (changing nothing) when the
builder is absent or the eligible search-fields set is empty — the guard
precedes the run-id increment and every other effect — otherwise capture a
fresh run id, build, post-process and commit.  `bottomUpStart` /
`bottomUpFinish` are the same invocation split at its suspension point for
reasoning about overlapping runs. -/
def executeBottomUpSearch (builder : Option NetworkBuilderFn)
    (params : BUParams) (limit : Nat) (s : SearchState) : SearchState :=
  match builder with
  | none => s
  | some build =>
    if params.searchFields.length = 0 then s
    else
      let st := bottomUpStart s
      let filtered := build (mkBuilderState params) params.searchLogic
        params.nodeRankingMode
      bottomUpFinish st.1 st.2 (finalizeBottomUpResult filtered limit)

/-- The alert-surfaced refusals of `handleBottomUpSearch` (`src/App.tsx`,
lines 718-731); an empty eligible-fields set is the spec's InvalidRequest. -/
inductive ReqErr
  | builderNotReady
  | emptyKeywords
  | invalidRequest
deriving DecidableEq, Repr

/-- The App state `handleBottomUpSearch` touches: the search state plus the
stored parameters. -/
structure AppSearchState where
  search : SearchState
  storedParams : Option BUParams
deriving DecidableEq, Repr

/-- `handleBottomUpSearch` from `src/App.tsx` (lines 707-746): refuse — via
alert, with an early return before any state change or matching work — when
the builder is not ready, the keywords are blank, or no search field is
eligible; otherwise store the effective parameters (`maxNodes` defaulted
from `maxHops || 1500`) and run the search. -/
def handleBottomUpSearch (builder : Option NetworkBuilderFn)
    (maxHops : Option Nat) (limit : Nat) (params : BUParams)
    (st : AppSearchState) : Except ReqErr AppSearchState :=
  match builder with
  | none => .error .builderNotReady
  | some b =>
    if jsTrim params.keywords = "" then .error .emptyKeywords
    else if params.searchFields.length = 0 then .error .invalidRequest
    else
      let effective := { params with maxNodes := jsOrNat maxHops 1500 }
      .ok { storedParams := some effective,
            search := executeBottomUpSearch (some b) effective limit st.search }

/-! ### Shared concrete objects for witnesses and counterexamples -/

/-- A minimal concrete node for concrete evaluations. -/
def exNode (id : String) (t : TimeScope) : GraphNode :=
  { id := id, name := id, node_type := "entity", time := t,
    display_label := none, text := none, val := 0,
    color := "#F0A734", baseColor := "#F0A734" }

/-- The empty builder result. -/
def emptyFiltered : FilteredGraph :=
  { nodes := [], links := [], truncated := false, matchedCount := 0 }

/-- A fetcher whose every request fails. -/
def exFetcherDead : Fetcher :=
  { manifest := none, graphFile := fun _ => none, metaFile := fun _ => none }

/-- A fetcher with an empty manifest. -/
def exFetcherNoTitle : Fetcher :=
  { manifest := some { version := 1, titles := [] },
    graphFile := fun _ => none, metaFile := fun _ => none }

/-- A fetcher whose manifest lists title 26 as a single file whose fetch
fails. -/
def exFetcherBadFile : Fetcher :=
  { manifest := some
      { version := 1, titles := [{ id := 26, kind := .single "title-26.json" }] },
    graphFile := fun _ => none, metaFile := fun _ => none }

/-! ### C5 — scoped view projection -/

/-- C5: for every cached graph and scope, the projected view contains
exactly the nodes whose time tag equals the scope, and exactly the links
whose own time tag equals the scope and whose source and target ids are
both present in the filtered node set; hence a link whose own scope tag
differs from the active scope, or either of whose endpoint ids has no node
in the active scope, never appears in the projection. -/
theorem scopedFullGraph_project_spec (g : GraphData) (scope : TimeScope) :
    (∀ n : GraphNode, n ∈ (scopedFullGraph g scope).nodes ↔
      n ∈ g.nodes ∧ n.time = scope) ∧
    (∀ l : GraphLink, l ∈ (scopedFullGraph g scope).links ↔
      l ∈ g.links ∧ l.time = scope ∧
      l.source.getId ∈ (scopedFullGraph g scope).nodes.map GraphNode.id ∧
      l.target.getId ∈ (scopedFullGraph g scope).nodes.map GraphNode.id) := by
  constructor
  · intro n
    simp [scopedFullGraph, List.mem_filter]
  · intro l
    simp [scopedFullGraph, List.mem_filter, List.elem_eq_mem, and_assoc]

/-! ### C7 — cache idempotence -/

/-- C7: calling `loadGraph` while the cache already holds this very title
returns the existing cached graph itself and changes nothing; the fetcher is
universally quantified and unused, so no re-fetch can occur. -/
theorem loadGraph_cached_idempotent (f : Fetcher) (t : Nat) (s : ApiState)
    (g : GraphData) (hg : s.cachedGraph = some g)
    (ht : s.cachedTitle = some t) :
    loadGraph f t s = (.ok g, s) := by
  simp [loadGraph, hg, ht]

/-- Witness for C7 at a concrete cached state. -/
theorem loadGraph_cached_idempotent_witness :
    loadGraph exFetcherDead 26
        { cachedGraph := some { nodes := [], links := [] },
          cachedTitle := some 26 }
      = (.ok { nodes := [], links := [] },
         { cachedGraph := some { nodes := [], links := [] },
           cachedTitle := some 26 }) :=
  loadGraph_cached_idempotent exFetcherDead 26 _ _ rfl rfl

/-! ### C8 — atomic failure -/

/-- C8: a failing load is atomic — whenever `loadGraph` returns an error the
cache state is exactly the input state — and the error classification is as
specified: a title absent from the manifest yields `NotFound`, and a failing
required file request yields `FetchFailure`. -/
theorem load_failure_atomic :
    (∀ (f : Fetcher) (t : Nat) (s : ApiState) (e : LoadErr) (s' : ApiState),
      loadGraph f t s = (.error e, s') → s' = s) ∧
    (∀ (f : Fetcher) (t : Nat) (m : TitlesManifest),
      f.manifest = some m →
      m.titles.find? (fun it => it.id == t) = none →
      loadRawGraphForTitle f t = .error (.notFound t)) ∧
    (∀ (f : Fetcher) (t : Nat) (m : TitlesManifest) (item : ManifestItem)
        (file : String),
      f.manifest = some m →
      m.titles.find? (fun it => it.id == t) = some item →
      item.kind = .single file →
      f.graphFile file = none →
      loadRawGraphForTitle f t = .error (.fetchFailure file)) := by
  refine ⟨?_, ?_, ?_⟩
  · intro f t s e s' h
    unfold loadGraph at h
    split at h
    · exact absurd h (by simp)
    · split at h
      · injection h with h₁ h₂
        exact h₂.symm ▸ rfl
      · injection h with h₁ h₂
        exact absurd h₁ (by simp)
  · intro f t m hm hfind
    simp [loadRawGraphForTitle, hm, hfind]
  · intro f t m item file hm hfind hkind hfile
    simp [loadRawGraphForTitle, hm, hfind, hkind, hfile]

/-- Witness for C8 at concrete failing fetchers. -/
theorem load_failure_atomic_witness :
    loadGraph exFetcherNoTitle 26 initialApiState
        = (.error (.notFound 26), initialApiState) ∧
    initialApiState = initialApiState ∧
    loadRawGraphForTitle exFetcherNoTitle 26 = .error (.notFound 26) ∧
    loadRawGraphForTitle exFetcherBadFile 26
        = .error (.fetchFailure "title-26.json") :=
  ⟨rfl,
   load_failure_atomic.1 exFetcherNoTitle 26 initialApiState (.notFound 26)
     initialApiState rfl,
   load_failure_atomic.2.1 exFetcherNoTitle 26 _ rfl rfl,
   load_failure_atomic.2.2 exFetcherBadFile 26 _ _ "title-26.json" rfl rfl rfl rfl⟩

/-! ### C1 — generation counter: last issued run wins -/

/-- C1: an `executeBottomUpSearch` invocation commits its result to the
displayed state only when the run id it captured at start still equals the
shared counter at completion; a run completing after a newer run was issued
(so its captured id no longer equals the counter) commits nothing.  In the
overlapping interleaving issue run 1, issue run 2, run 2 resolves, run 1
resolves, the displayed result is run 2's output. -/
theorem bottomUp_generation_discard :
    (∀ (s : SearchState) (captured : Nat) (r : FilteredGraph),
      captured ≠ s.runId → bottomUpFinish s captured r = s) ∧
    (∀ (s : SearchState) (r : FilteredGraph),
      bottomUpFinish s s.runId r = { s with displayGraph := r }) ∧
    (∀ (s0 : SearchState) (r1 r2 : FilteredGraph),
      (bottomUpFinish
          (bottomUpFinish (bottomUpStart (bottomUpStart s0).1).1
            (bottomUpStart (bottomUpStart s0).1).2 r2)
          (bottomUpStart s0).2 r1).displayGraph = r2) := by
  refine ⟨?_, ?_, ?_⟩
  · intro s captured r h
    simp [bottomUpFinish, h]
  · intro s r
    simp [bottomUpFinish]
  · intro s0 r1 r2
    simp [bottomUpStart, bottomUpFinish]

/-- Witness for C1: a stale completion (captured id 1, counter already 2)
commits nothing. -/
theorem bottomUp_generation_discard_witness :
    (1 : Nat) ≠ (⟨2, emptyFiltered⟩ : SearchState).runId ∧
    bottomUpFinish ⟨2, emptyFiltered⟩ 1
        { nodes := [], links := [], truncated := true, matchedCount := 7 }
      = ⟨2, emptyFiltered⟩ :=
  ⟨by decide,
   bottomUp_generation_discard.1 ⟨2, emptyFiltered⟩ 1
     { nodes := [], links := [], truncated := true, matchedCount := 7 }
     (by decide)⟩

/-! ### C6 — empty eligible-fields set is refused fail-fast -/

/-- C6: a builder request whose eligible search-fields set is empty is
refused before any matching work: `handleBottomUpSearch` surfaces the
InvalidRequest refusal (with no state change, no parameter storage and no
builder invocation), and `executeBottomUpSearch`'s own guard — placed
before the run-id increment and every other effect — leaves the search
state exactly unchanged for every builder. -/
theorem bottomUp_empty_fields_fail_fast :
    (∀ (b : NetworkBuilderFn) (maxHops : Option Nat) (limit : Nat)
        (params : BUParams) (st : AppSearchState),
      params.searchFields = [] → jsTrim params.keywords ≠ "" →
      handleBottomUpSearch (some b) maxHops limit params st
        = .error .invalidRequest) ∧
    (∀ (builder : Option NetworkBuilderFn) (params : BUParams) (limit : Nat)
        (s : SearchState),
      params.searchFields = [] →
      executeBottomUpSearch builder params limit s = s) := by
  constructor
  · intro b maxHops limit params st hfields hkw
    simp [handleBottomUpSearch, hfields, hkw]
  · intro builder params limit s hfields
    cases builder with
    | none => rfl
    | some build => simp [executeBottomUpSearch, hfields]

/-- Witness for C6 at a concrete request with keywords but no eligible
fields. -/
theorem bottomUp_empty_fields_fail_fast_witness :
    handleBottomUpSearch (some (fun _ _ _ => emptyFiltered)) none 4000
        { keywords := "tax", expansionDegree := 1, maxNodes := 100,
          nodeTypes := [], edgeTypes := [], searchFields := [],
          searchLogic := .disj, nodeRankingMode := .global }
        { search := ⟨0, emptyFiltered⟩, storedParams := none }
      = .error .invalidRequest ∧
    executeBottomUpSearch (some (fun _ _ _ => emptyFiltered))
        { keywords := "tax", expansionDegree := 1, maxNodes := 100,
          nodeTypes := [], edgeTypes := [], searchFields := [],
          searchLogic := .disj, nodeRankingMode := .global }
        4000 ⟨0, emptyFiltered⟩
      = ⟨0, emptyFiltered⟩ :=
  ⟨bottomUp_empty_fields_fail_fast.1 (fun _ _ _ => emptyFiltered) none 4000 _ _
     rfl (by decide),
   bottomUp_empty_fields_fail_fast.2 (some (fun _ _ _ => emptyFiltered)) _ 4000
     ⟨0, emptyFiltered⟩ rfl⟩

/-! ### C2 — selection across a scope switch -/

/-- C2 counterexample: with a selection held on node `x` recorded in the
`pre` scope, no document modal open, and no node `x` in the `post` scope,
`switchTimeScope`'s selection update keeps the selection (with its old
scope) instead of clearing it, so the claimed clearing behaviour is false
at this input. -/
theorem scope_switch_clear_counterexample :
    switchScopeSelection [exNode "x" TimeScope.pre] none TimeScope.post
        (some ⟨"x", TimeScope.pre⟩) = some ⟨"x", TimeScope.pre⟩ ∧
    switchScopeSelection [exNode "x" TimeScope.pre] none TimeScope.post
        (some ⟨"x", TimeScope.pre⟩) ≠ none := by
  constructor
  · rfl
  · intro h
    simp [switchScopeSelection, exNode] at h

/-- C2 amended: on a scope switch with no document modal open and a
selection held on a non-empty identifier (an empty-string id never passes
the source's falsy anchor guard), if a node sharing the selection's id
exists in the new scope the selection is preserved and re-recorded in the
new scope; if no such node exists the selection is NOT cleared but retained
unchanged with its original scope tag (and is merely non-actionable while
that scope is inactive). -/
theorem scope_switch_selection_amended (nodes : List GraphNode)
    (next : TimeScope) (sel : SelectedNode) (hid : sel.id ≠ "") :
    ((∃ n ∈ nodes, n.id = sel.id ∧ n.time = next) →
      switchScopeSelection nodes none next (some sel)
        = some { id := sel.id, scope := next }) ∧
    ((∀ n ∈ nodes, ¬(n.id = sel.id ∧ n.time = next)) →
      switchScopeSelection nodes none next (some sel) = some sel) := by
  constructor
  · intro h
    obtain ⟨n, hn, hneq, htime⟩ := h
    have : nodes.any (fun n => n.id == sel.id && n.time == next) = true := by
      simp [List.any_eq_true]
      exact ⟨n, hn, hneq, htime⟩
    simp [switchScopeSelection, hid, this]
  · intro h
    have : nodes.any (fun n => n.id == sel.id && n.time == next) = false := by
      simp [List.any_eq_false]
      intro n hn hneq
      exact fun htime => h n hn ⟨hneq, htime⟩
    simp [switchScopeSelection, hid, this]

/-- Witness for C2 amended, both branches at concrete inputs. -/
theorem scope_switch_selection_amended_witness :
    switchScopeSelection [exNode "x" TimeScope.pre, exNode "x" TimeScope.post]
        none TimeScope.post (some ⟨"x", TimeScope.pre⟩)
      = some { id := "x", scope := TimeScope.post } ∧
    switchScopeSelection [exNode "y" TimeScope.pre] none TimeScope.post
        (some ⟨"y", TimeScope.pre⟩) = some ⟨"y", TimeScope.pre⟩ :=
  ⟨(scope_switch_selection_amended
      [exNode "x" TimeScope.pre, exNode "x" TimeScope.post] TimeScope.post
      ⟨"x", TimeScope.pre⟩ (by decide)).1 (by decide),
   (scope_switch_selection_amended [exNode "y" TimeScope.pre] TimeScope.post
      ⟨"y", TimeScope.pre⟩ (by decide)).2 (by decide)⟩

/-! ### C4 — global one-pass degree -/

/-- Spec-side count: the number of endpoint occurrences of a raw id over a
link list (one per occurrence as source plus one per occurrence as target;
a self-loop counts twice). -/
def endpointCount (links : List RawLink) (id : String) : Nat :=
  (links.filter (fun l => l.source.getId == id)).length +
    (links.filter (fun l => l.target.getId == id)).length

lemma bumpDegree_apply (m : String → Nat) (k x : String) :
    bumpDegree m k x = m x + (if k = x then 1 else 0) := by
  unfold bumpDegree
  by_cases h : x = k
  · subst h
    simp
  · rw [if_neg h, if_neg (fun hk => h hk.symm)]
    simp

lemma endpointCount_cons (l : RawLink) (ls : List RawLink) (x : String) :
    endpointCount (l :: ls) x
      = (if l.source.getId = x then 1 else 0)
        + (if l.target.getId = x then 1 else 0) + endpointCount ls x := by
  simp only [endpointCount, List.filter_cons]
  by_cases hs : l.source.getId = x <;> by_cases ht : l.target.getId = x <;>
    simp [hs, ht] <;> omega

lemma degreeMap_foldl (links : List RawLink) (m : String → Nat) (x : String) :
    (links.foldl
        (fun m link =>
          bumpDegree (bumpDegree m link.source.getId) link.target.getId) m) x
      = m x + endpointCount links x := by
  induction links generalizing m with
  | nil => simp [endpointCount]
  | cons l ls ih =>
    rw [List.foldl_cons, ih, bumpDegree_apply, bumpDegree_apply,
      endpointCount_cons]
    omega

lemma degreeMap_eq_endpointCount (links : List RawLink) (x : String) :
    degreeMap links x = endpointCount links x := by
  simp [degreeMap, degreeMap_foldl]

lemma buildGraphData_val (raw : RawGraph) (n : GraphNode)
    (hn : n ∈ (buildGraphData raw).nodes) :
    n.val = endpointCount raw.links n.id := by
  simp only [buildGraphData, List.mem_map] at hn
  obtain ⟨rn, _, rfl⟩ := hn
  exact degreeMap_eq_endpointCount raw.links rn.id

/-- The spec's degree example: nodes A, B, C and links A→B, B→C, A→C
(nodes deliberately spread over both scopes). -/
def exDegreeRaw : RawGraph :=
  { nodes :=
      [{ id := "A", name := "A", node_type := "entity", time := .pre,
         display_label := none, text := none },
       { id := "B", name := "B", node_type := "entity", time := .pre,
         display_label := none, text := none },
       { id := "C", name := "C", node_type := "entity", time := .post,
         display_label := none, text := none }],
    links :=
      [{ source := .str "A", target := .str "B", edge_type := none,
         action := none, time := .pre, weight := none },
       { source := .str "B", target := .str "C", edge_type := none,
         action := none, time := .pre, weight := none },
       { source := .str "A", target := .str "C", edge_type := none,
         action := none, time := .pre, weight := none }] }

/-- C4: every node of a loaded graph carries as its degree the number of its
raw id's endpoint occurrences over the entire merged link list — computed
without regard to time scope, so any two nodes sharing a raw id get the
same value regardless of scope — and on the example A→B, B→C, A→C the
computed degrees are A=2, B=2, C=2. -/
theorem degree_global_one_pass :
    (∀ (raw : RawGraph) (n : GraphNode), n ∈ (buildGraphData raw).nodes →
      n.val = endpointCount raw.links n.id) ∧
    (∀ (raw : RawGraph) (n₁ n₂ : GraphNode),
      n₁ ∈ (buildGraphData raw).nodes → n₂ ∈ (buildGraphData raw).nodes →
      n₁.id = n₂.id → n₁.val = n₂.val) ∧
    (buildGraphData exDegreeRaw).nodes.map GraphNode.val = [2, 2, 2] := by
  refine ⟨buildGraphData_val, ?_, by decide⟩
  intro raw n₁ n₂ h₁ h₂ hid
  rw [buildGraphData_val raw n₁ h₁, buildGraphData_val raw n₂ h₂, hid]

/-- Witness for C4 at a concrete loaded graph and node. -/
theorem degree_global_one_pass_witness :
    ({ id := "A", name := "A", node_type := "entity", time := .pre,
       display_label := none, text := none, val := 2, color := "#F0A734",
       baseColor := "#F0A734" } : GraphNode) ∈ (buildGraphData exDegreeRaw).nodes ∧
    (2 : Nat) = endpointCount exDegreeRaw.links "A" :=
  ⟨by decide,
   degree_global_one_pass.1 exDegreeRaw
     { id := "A", name := "A", node_type := "entity", time := .pre,
       display_label := none, text := none, val := 2, color := "#F0A734",
       baseColor := "#F0A734" } (by decide)⟩

/-! ### C3 — split-dataset merge: node dedup, link concatenation -/

lemma mergeParts_links_aux (parts : List RawGraph)
    (seen : List (TimeScope × String)) (acc : List RawNode)
    (ls : List RawLink) :
    (parts.foldl mergePartStep (seen, acc, ls)).2.2
      = ls ++ parts.flatMap RawGraph.links := by
  induction parts generalizing seen acc ls with
  | nil => simp
  | cons p ps ih =>
    rw [List.foldl_cons, List.flatMap_cons]
    simp only [mergePartStep]
    rw [ih]
    rw [List.append_assoc]

lemma mergeParts_nodes_aux (parts : List RawGraph)
    (seen : List (TimeScope × String)) (acc : List RawNode)
    (ls : List RawLink) :
    ((parts.foldl mergePartStep (seen, acc, ls)).1,
      (parts.foldl mergePartStep (seen, acc, ls)).2.1)
      = (parts.flatMap RawGraph.nodes).foldl mergeNodeStep (seen, acc) := by
  induction parts generalizing seen acc ls with
  | nil => simp
  | cons p ps ih =>
    rw [List.foldl_cons, List.flatMap_cons, List.foldl_append]
    simp only [mergePartStep]
    rw [ih]

lemma mergeNodeStep_foldl_filter (ns : List RawNode)
    (seen : List (TimeScope × String)) (acc : List RawNode)
    (k : TimeScope × String) :
    ((ns.foldl mergeNodeStep (seen, acc)).2).filter (fun n => nodeKey n == k)
      = acc.filter (fun n => nodeKey n == k)
        ++ if k ∈ seen then []
           else (ns.filter (fun n => nodeKey n == k)).take 1 := by
  induction ns generalizing seen acc with
  | nil =>
    by_cases hk : k ∈ seen <;> simp [hk]
  | cons n ns ih =>
    rw [List.foldl_cons]
    by_cases hmem : nodeKey n ∈ seen
    · rw [show mergeNodeStep (seen, acc) n = (seen, acc) from by
        simp [mergeNodeStep, hmem], ih]
      by_cases hk : k ∈ seen
      · simp [hk]
      · have hne : ¬(nodeKey n == k) = true := by
          simp only [beq_iff_eq]
          intro h
          exact hk (h ▸ hmem)
        simp [hk, List.filter_cons, hne]
    · rw [show mergeNodeStep (seen, acc) n = (nodeKey n :: seen, acc ++ [n]) from by
        simp [mergeNodeStep, hmem], ih]
      by_cases hkn : nodeKey n = k
      · have hk : ¬ k ∈ seen := fun h => hmem (hkn ▸ h)
        have hmemcons : k ∈ nodeKey n :: seen := by
          rw [hkn]; exact List.mem_cons_self _ _
        rw [if_pos hmemcons, if_neg hk]
        simp [List.filter_append, List.filter_cons, hkn]
      · have hiff : k ∈ nodeKey n :: seen ↔ k ∈ seen := by
          constructor
          · intro h
            rcases List.mem_cons.mp h with h | h
            · exact absurd h.symm hkn
            · exact h
          · exact fun h => List.mem_cons_of_mem _ h
        have hne : ¬(nodeKey n == k) = true := by
          simp only [beq_iff_eq]; exact hkn
        by_cases hk : k ∈ seen
        · rw [if_pos (hiff.mpr hk), if_pos hk]
          simp [List.filter_append, hne]
        · rw [if_neg (fun h => hk (hiff.mp h)), if_neg hk]
          simp [List.filter_append, List.filter_cons, hne]

/-- C3: merging a split dataset's parts keeps, for every distinct
`(time-scope, id)` composite key, exactly the first node bearing that key
in listed part order (the merged node list filtered to a key equals the
first occurrence of that key in the parts' concatenated node lists, so
later duplicates are dropped and absent keys stay absent), while the merged
link list is the unconditional concatenation of every part's links. -/
theorem merge_dedup_first_occurrence (parts : List RawGraph) :
    (∀ k : TimeScope × String,
      (mergeParts parts).nodes.filter (fun n => nodeKey n == k)
        = ((parts.flatMap RawGraph.nodes).filter
            (fun n => nodeKey n == k)).take 1) ∧
    (mergeParts parts).links = parts.flatMap RawGraph.links := by
  constructor
  · intro k
    show ((parts.foldl mergePartStep ([], [], [])).2.1).filter _ = _
    have h := congrArg Prod.snd (mergeParts_nodes_aux parts [] [] [])
    simp only at h
    rw [h, mergeNodeStep_foldl_filter]
    simp
  · show (parts.foldl mergePartStep ([], [], [])).2.2 = _
    rw [mergeParts_links_aux]
    simp

/-! ### C10 — scoped node-name substring search -/

/-- C10: for every query and scope, `searchActors` returns at most 20 rows;
every returned row derives from a node of the active scope whose name or
display label contains the query as a case-insensitive substring; and the
returned list is sorted alphabetically by the displayed name (display label
when present and non-empty, otherwise the name). -/
theorem searchActors_spec (g : GraphData) (q : String) (scope : TimeScope) :
    (searchActors g q scope).length ≤ 20 ∧
    (∀ a ∈ searchActors g q scope, ∃ n ∈ g.nodes,
      n.time = scope ∧
      (strIncludes (jsToLower n.name) (jsToLower q) = true ∨
        strIncludes (jsToLower (jsCoalesce n.display_label "")) (jsToLower q)
          = true) ∧
      a = { id := n.id, name := jsOrStr n.display_label n.name,
            connection_count := n.val, time := n.time }) ∧
    (searchActors g q scope).Sorted actorNameLe := by
  refine ⟨?_, ?_, ?_⟩
  · simp only [searchActors]
    exact List.length_take_le 20 _
  · intro a ha
    simp only [searchActors] at ha
    have hmem : a ∈ List.insertionSort actorNameLe
        (((g.nodes.filter (fun n => n.time == scope)).filter (fun node =>
            strIncludes (jsToLower node.name) (jsToLower q) ||
              strIncludes (jsToLower (jsCoalesce node.display_label ""))
                (jsToLower q))).map (fun node =>
          { id := node.id, name := jsOrStr node.display_label node.name,
            connection_count := node.val, time := node.time : Actor })) :=
      List.take_subset _ _ ha
    have hmem2 := (List.perm_insertionSort actorNameLe _).subset hmem
    simp only [List.mem_map, List.mem_filter, Bool.or_eq_true,
      beq_iff_eq] at hmem2
    obtain ⟨n, ⟨⟨hn, htime⟩, hmatch⟩, rfl⟩ := hmem2
    exact ⟨n, hn, htime, hmatch, rfl⟩
  · simp only [searchActors]
    exact (List.sorted_insertionSort actorNameLe _).sublist
      (List.take_sublist _ _)

/-- A concrete graph for the search witness. -/
def exSearchGraph : GraphData :=
  { nodes :=
      [{ id := "n1", name := "Beta TAX rule", node_type := "entity",
         time := .pre, display_label := none, text := none, val := 3,
         color := "c", baseColor := "c" },
       { id := "n2", name := "zeta", node_type := "concept", time := .pre,
         display_label := some "Alpha tax", text := none, val := 1,
         color := "c", baseColor := "c" },
       { id := "n3", name := "tax post-scope", node_type := "entity",
         time := .post, display_label := none, text := none, val := 0,
         color := "c", baseColor := "c" }],
    links := [] }

/-- Witness for C10 at a concrete graph, query and scope. -/
theorem searchActors_spec_witness :
    ({ id := "n2", name := "Alpha tax", connection_count := 1,
       time := .pre : Actor } ∈ searchActors exSearchGraph "Tax" .pre) ∧
    (∃ n ∈ exSearchGraph.nodes, n.time = TimeScope.pre ∧
      (strIncludes (jsToLower n.name) (jsToLower "Tax") = true ∨
        strIncludes (jsToLower (jsCoalesce n.display_label ""))
          (jsToLower "Tax") = true) ∧
      ({ id := "n2", name := "Alpha tax", connection_count := 1,
         time := .pre : Actor }
        = { id := n.id, name := jsOrStr n.display_label n.name,
            connection_count := n.val, time := n.time })) :=
  ⟨by decide,
   (searchActors_spec exSearchGraph "Tax" .pre).2.1
     { id := "n2", name := "Alpha tax", connection_count := 1, time := .pre }
     (by decide)⟩

/-! ### C9 — shared hub-first truncation: exactly the top limit, stably -/

/-- Annotate each item with its original position. -/
def withIdx {α : Type} : Nat → List α → List (Nat × α)
  | _, [] => []
  | i, x :: xs => (i, x) :: withIdx (i + 1) xs

/-- The strict ranking the claim describes: higher pair-sum score first,
equal scores resolved by original relative order. -/
def hubPriority {α : Type} (score : α → Nat) (a b : Nat × α) : Prop :=
  score b.2 < score a.2 ∨ (score a.2 = score b.2 ∧ a.1 ≤ b.1)

instance {α : Type} (score : α → Nat) : DecidableRel (hubPriority score) :=
  fun a b => inferInstanceAs
    (Decidable (score b.2 < score a.2 ∨ (score a.2 = score b.2 ∧ a.1 ≤ b.1)))

instance {α : Type} (score : α → Nat) : IsTotal (Nat × α) (hubPriority score) :=
  ⟨fun a b => by unfold hubPriority; omega⟩

instance {α : Type} (score : α → Nat) : IsTrans (Nat × α) (hubPriority score) :=
  ⟨fun a b c hab hbc => by
    unfold hubPriority at *
    omega⟩

/-- The claim's canonical ranking of a candidate list: items annotated with
their original positions, sorted by descending pair-sum hub score with ties
in original order. -/
def hubRanked {α : Type} (srcId tgtId : α → String) (items : List α) :
    List (Nat × α) :=
  List.insertionSort
    (hubPriority (hubScore srcId tgtId (endpointDegrees srcId tgtId items)))
    (withIdx 0 items)

lemma withIdx_idx_ge {α : Type} (l : List α) :
    ∀ (i : Nat) (p : Nat × α), p ∈ withIdx i l → i ≤ p.1 := by
  induction l with
  | nil => intro i p hp; simp [withIdx] at hp
  | cons x xs ih =>
    intro i p hp
    rcases List.mem_cons.mp hp with h | h
    · rw [h]
    · exact Nat.le_of_succ_le (ih (i + 1) p h)

lemma orderedInsert_snd {α : Type} (score : α → Nat) (i : Nat) (x : α)
    (M : List (Nat × α)) (h : ∀ p ∈ M, i < p.1) :
    (List.orderedInsert (hubPriority score) (i, x) M).map Prod.snd
      = List.orderedInsert (hubRel score) x (M.map Prod.snd) := by
  induction M with
  | nil => rfl
  | cons p M ih =>
    have hip : i < p.1 := h p (List.mem_cons_self p M)
    have hcond : hubPriority score (i, x) p ↔ hubRel score x p.2 := by
      unfold hubPriority hubRel
      constructor
      · rintro (hlt | ⟨heq, _⟩)
        · exact Nat.le_of_lt hlt
        · exact Nat.le_of_eq heq.symm
      · intro hle
        rcases Nat.lt_or_ge (score p.2) (score x) with hlt | hge
        · exact Or.inl hlt
        · exact Or.inr ⟨Nat.le_antisymm hge hle, Nat.le_of_lt hip⟩
    simp only [List.map_cons, List.orderedInsert]
    by_cases hc : hubPriority score (i, x) p
    · rw [if_pos hc, if_pos (hcond.mp hc)]
      simp
    · rw [if_neg hc, if_neg (fun hr => hc (hcond.mpr hr)), List.map_cons,
        ih (fun q hq => h q (List.mem_cons_of_mem p hq))]

lemma insertionSort_withIdx_snd {α : Type} (score : α → Nat) :
    ∀ (l : List α) (i : Nat),
      (List.insertionSort (hubPriority score) (withIdx i l)).map Prod.snd
        = List.insertionSort (hubRel score) l := by
  intro l
  induction l with
  | nil => intro i; rfl
  | cons x xs ih =>
    intro i
    show (List.insertionSort (hubPriority score)
        ((i, x) :: withIdx (i + 1) xs)).map Prod.snd = _
    simp only [List.insertionSort]
    have hbound : ∀ p ∈ List.insertionSort (hubPriority score)
        (withIdx (i + 1) xs), i < p.1 := by
      intro p hp
      have hm := (List.perm_insertionSort (hubPriority score) _).subset hp
      exact Nat.lt_of_succ_le (withIdx_idx_ge xs (i + 1) p hm)
    rw [orderedInsert_snd score i x _ hbound, ih (i + 1)]

lemma orderedInsert_map {α β : Type} (r : β → β → Prop) [DecidableRel r]
    (r' : α → α → Prop) [DecidableRel r'] (f : α → β)
    (hr : ∀ a b, r' a b ↔ r (f a) (f b)) (x : α) (l : List α) :
    List.orderedInsert r (f x) (l.map f)
      = (List.orderedInsert r' x l).map f := by
  induction l with
  | nil => rfl
  | cons y ys ih =>
    simp only [List.map_cons, List.orderedInsert]
    by_cases hc : r' x y
    · rw [if_pos ((hr x y).mp hc), if_pos hc]
      simp
    · rw [if_neg (fun hrf => hc ((hr x y).mpr hrf)), if_neg hc, List.map_cons,
        ih]

lemma insertionSort_map {α β : Type} (r : β → β → Prop) [DecidableRel r]
    (r' : α → α → Prop) [DecidableRel r'] (f : α → β)
    (hr : ∀ a b, r' a b ↔ r (f a) (f b)) (l : List α) :
    List.insertionSort r (l.map f) = (List.insertionSort r' l).map f := by
  induction l with
  | nil => rfl
  | cons x xs ih =>
    simp only [List.map_cons, List.insertionSort]
    rw [ih, orderedInsert_map r r' f hr]

lemma endpointDegrees_map {α β : Type} (sa ta : α → String)
    (sb tb : β → String) (f : α → β) (hs : ∀ a, sb (f a) = sa a)
    (ht : ∀ a, tb (f a) = ta a) (items : List α) :
    endpointDegrees sb tb (items.map f) = endpointDegrees sa ta items := by
  unfold endpointDegrees
  rw [List.foldl_map]
  congr 1
  funext m a
  rw [hs, ht]

lemma hubTruncate_map {α β : Type} (sa ta : α → String) (sb tb : β → String)
    (f : α → β) (hs : ∀ a, sb (f a) = sa a) (ht : ∀ a, tb (f a) = ta a)
    (items : List α) (limit : Nat) :
    ((hubTruncate sa ta items limit).1.map f,
      (hubTruncate sa ta items limit).2)
      = hubTruncate sb tb (items.map f) limit := by
  unfold hubTruncate
  rw [List.length_map]
  by_cases hlen : items.length > limit
  · rw [if_pos hlen, if_pos hlen]
    have hdeg : endpointDegrees sb tb (items.map f)
        = endpointDegrees sa ta items := endpointDegrees_map sa ta sb tb f hs ht items
    have hscore : ∀ a, hubScore sb tb (endpointDegrees sb tb (items.map f))
        (f a) = hubScore sa ta (endpointDegrees sa ta items) a := by
      intro a
      rw [hdeg]
      unfold hubScore
      rw [hs, ht]
    simp only
    rw [insertionSort_map (hubRel (hubScore sb tb (endpointDegrees sb tb
        (items.map f)))) (hubRel (hubScore sa ta (endpointDegrees sa ta items)))
      f (fun a b => by unfold hubRel; rw [hscore a, hscore b]) items,
      ← List.map_take]
  · rw [if_neg hlen, if_neg hlen]

/-- Glue for comparing the two truncation call sites: a relationship viewed
as a link carrying the same endpoint ids. -/
def relToLink (r : Relationship) : GraphLink :=
  { source := .str (relActorId r), target := .str (relTargetId r),
    action := r.action, edge_type := "reference", time := .pre, weight := 1 }

/-- C9: whenever a candidate link list exceeds the caller's limit, the
retained list is exactly the first `limit` of the canonical ranking — the
candidates sorted descending by the sum of their two endpoints' degrees
computed within that candidate list, equal scores resolved by original
relative order — and the truncation flag is set; that ranking really is
sorted by the priority and is a permutation of the candidates.  The plain
relationship listing runs the same deterministic algorithm: its truncation
commutes with the endpoint-preserving view of relationships as links. -/
theorem hub_truncation_top_limit :
    (∀ (links : List GraphLink) (limit : Nat), limit < links.length →
      truncateLinksByHub links limit
        = (((hubRanked linkSrcId linkTgtId links).map Prod.snd).take limit,
            true) ∧
      (hubRanked linkSrcId linkTgtId links).Sorted
        (hubPriority (hubScore linkSrcId linkTgtId
          (endpointDegrees linkSrcId linkTgtId links))) ∧
      ((hubRanked linkSrcId linkTgtId links).map Prod.snd).Perm links) ∧
    (∀ (rels : List Relationship) (limit : Nat),
      ((truncateRelsByHub rels limit).1.map relToLink,
        (truncateRelsByHub rels limit).2)
        = truncateLinksByHub (rels.map relToLink) limit) := by
  constructor
  · intro links limit hlen
    refine ⟨?_, ?_, ?_⟩
    · unfold truncateLinksByHub hubTruncate
      rw [if_pos hlen]
      unfold hubRanked
      rw [insertionSort_withIdx_snd]
    · exact List.sorted_insertionSort _ _
    · unfold hubRanked
      rw [insertionSort_withIdx_snd]
      exact List.perm_insertionSort _ _
  · intro rels limit
    unfold truncateRelsByHub truncateLinksByHub
    exact hubTruncate_map relActorId relTargetId linkSrcId linkTgtId relToLink
      (fun r => rfl) (fun r => rfl) rels limit

/-- A concrete link for witnesses. -/
def exGLink (s t : String) : GraphLink :=
  { source := .str s, target := .str t, action := "reference",
    edge_type := "reference", time := .pre, weight := 1 }

/-- Concrete candidate list with a hub node for the truncation witness. -/
def exHubLinks : List GraphLink :=
  [exGLink "a" "b", exGLink "a" "c", exGLink "a" "d", exGLink "e" "g"]

/-- Witness for C9 at a concrete candidate list exceeding the limit. -/
theorem hub_truncation_top_limit_witness :
    2 < exHubLinks.length ∧
    (truncateLinksByHub exHubLinks 2
        = (((hubRanked linkSrcId linkTgtId exHubLinks).map Prod.snd).take 2,
            true) ∧
      (hubRanked linkSrcId linkTgtId exHubLinks).Sorted
        (hubPriority (hubScore linkSrcId linkTgtId
          (endpointDegrees linkSrcId linkTgtId exHubLinks))) ∧
      ((hubRanked linkSrcId linkTgtId exHubLinks).map Prod.snd).Perm
        exHubLinks) :=
  ⟨by decide, hub_truncation_top_limit.1 exHubLinks 2 (by decide)⟩
